import Mathlib

/-!
Verification of the `dynamicstruct` Go package (gosmos-space/dynamicstruct).

The package offers a `Builder` that accumulates named and anonymous
(embedded) struct-field declarations, synthesizes a fresh struct type at
runtime via `reflect.StructOf`, allocates one zero-valued instance of it,
and gives typed read access to the instance fields afterwards.

This file shallowly embeds the Go source: Go runtime types become the
inductive `GoType`, Go runtime values become `GoValue`, the untyped `any`
interface becomes `InterfaceValue`, and each `Builder` method becomes a
Lean function threading the builder state explicitly.  Go panics raised
inside `reflect.StructOf` (or by calling a method on a nil `reflect.Type`)
are modelled as a dedicated `panic_` result constructor.  The external
tag-grammar validator (`structtag.Parse`) is kept abstract as a Boolean
predicate parameter, as the spec treats it as a black-box collaborator.
-/

namespace Dynamicstruct

/-- Sentinel errors of the package (errors.go is matched by identity in the
tests; `incompatibleTypes` additionally carries the two rendered type names
that the Go code wraps into the sentinel with `fmt.Errorf`). -/
inductive GoErr : Type where
  | instanceAlreadyBuilt
  | fieldAlreadyExists
  | anonymousFieldAlreadyExists
  | instanceNotBuilt
  | valueMustBePointer
  | valueCannotBeNil
  | fieldNotFound
  | anonymousFieldNotFound
  | incompatibleTypes (fieldType valueType : String)
  | invalidTag
deriving DecidableEq

/-- Shallow model of Go runtime types as used through `reflect` in the
package: a few built-ins, slices, pointers, and externally defined named
types (such as the structs embedded in the tests), identified by their
name together with their kind string. -/
inductive GoType : Type where
  | int
  | string
  | bool
  | slice (elem : GoType)
  | ptr (elem : GoType)
  | named (name : String) (kind : String)
deriving DecidableEq

/-- Model of `reflect.Type.Name()`: built-ins carry their own name,
composite unnamed types have the empty name, named types their name. -/
def GoType.name : GoType → String
  | .int => "int"
  | .string => "string"
  | .bool => "bool"
  | .slice _ => ""
  | .ptr _ => ""
  | .named n _ => n

/-- Model of `reflect.Type.Kind().String()`. -/
def GoType.kindString : GoType → String
  | .int => "int"
  | .string => "string"
  | .bool => "bool"
  | .slice _ => "slice"
  | .ptr _ => "ptr"
  | .named _ k => k

/-- Model of `reflect.Type.String()`, the rendering used in the
`IncompatibleTypes` error message. -/
def GoType.render : GoType → String
  | .int => "int"
  | .string => "string"
  | .bool => "bool"
  | .slice e => "[]" ++ e.render
  | .ptr e => "*" ++ e.render
  | .named n _ => n

/-- Shallow model of Go runtime values, just rich enough to distinguish
zero values, nil pointers and opaque values of external named types:
non-nil slices, non-nil pointers and values of external named types are
opaque handles, since the package only ever copies them whole. -/
inductive GoValue : Type where
  | intV (n : Int)
  | stringV (s : String)
  | boolV (b : Bool)
  | sliceNil
  | sliceV (addr : Nat)
  | nilPtr
  | ptrV (addr : Nat)
  | namedV (tyName : String) (payload : Nat)
deriving DecidableEq

/-- Zero value of a Go type, as produced by `reflect.New(t).Elem()`. -/
def goZero : GoType → GoValue
  | .int => .intV 0
  | .string => .stringV ""
  | .bool => .boolV false
  | .slice _ => .sliceNil
  | .ptr _ => .nilPtr
  | .named n _ => .namedV n 0

/-- A Go `any` (empty interface) argument: either the untyped nil
interface, or a dynamic type paired with a value.  `reflect.TypeOf`
returns nil exactly on the untyped nil interface. -/
abbrev InterfaceValue : Type := Option (GoType × GoValue)

/-- Model of `reflect.TypeOf` applied to an `any` argument. -/
def typeOf (v : InterfaceValue) : Option GoType := v.map Prod.fst

/-- Model of `reflect.StructField` as the package populates it: a name, a
type handle (nil when the sample value was the untyped nil interface), a
raw tag string and the anonymous flag. -/
structure StructField : Type where
  name : String
  type : Option GoType
  tag : String
  anonymous : Bool
deriving DecidableEq

/-- A field of the synthesized struct instance: its resolved descriptor
plus its current value. -/
structure InstField : Type where
  name : String
  type : GoType
  tag : String
  anonymous : Bool
  value : GoValue
deriving DecidableEq

/-- The single live instance of the synthesized struct type: its fields in
declaration order, each holding a current value. -/
abbrev Instance : Type := List InstField

/-- The `Builder` state: the named-field registry (a Go map from name to
`reflect.StructField`, modelled as an association list keyed by name), the
ordered anonymous-field sequence, and the optional built instance.  The
mutex only serializes calls and has no sequential semantics, so it is not
modelled. -/
structure Builder : Type where
  fields : List (String × StructField)
  anonymousFields : List StructField
  instance_ : Option Instance
deriving DecidableEq

/-- Model of `New()`. -/
def New : Builder := { fields := [], anonymousFields := [], instance_ := none }

/-- Go map lookup on the named-field registry. -/
def mapLookup (m : List (String × StructField)) (k : String) : Option StructField :=
  match m with
  | [] => none
  | (k₀, v₀) :: rest => if k₀ = k then some v₀ else mapLookup rest k

/-- Go map insertion: overwrite the existing binding or append a new one. -/
def mapInsert (m : List (String × StructField)) (k : String) (v : StructField) :
    List (String × StructField) :=
  match m with
  | [] => [(k, v)]
  | (k₀, v₀) :: rest => if k₀ = k then (k, v) :: rest else (k₀, v₀) :: mapInsert rest k v

/-- Go map deletion (`delete(b.fields, name)`): removing an absent key is
a no-op. -/
def mapDelete (m : List (String × StructField)) (k : String) :
    List (String × StructField) :=
  m.filter (fun kv => kv.1 ≠ k)

/-- Result of a mutation method: a nil error, a sentinel error, or a
propagated runtime panic. -/
inductive MutResult : Type where
  | ok
  | err (e : GoErr)
  | panic_ (msg : String)
deriving DecidableEq

/-- Result of `Build`: the instance handle, a sentinel error, or a panic
raised by `reflect.StructOf`. -/
inductive BuildResult : Type where
  | ok (inst : Instance)
  | err (e : GoErr)
  | panic_ (msg : String)
deriving DecidableEq

/-- Tag handling shared by `AddField` and `AddAnonymousField`: with no
fragments the tag stays empty; otherwise the fragments are joined with a
single space and, when the join is non-empty, validated by the external
tag-grammar parser (abstracted as `parse`). -/
def tagOf (parse : String → Bool) (tags : List String) : Except GoErr String :=
  if tags.length > 0 then
    let tagString := String.intercalate " " tags
    if tagString ≠ "" ∧ ¬ parse tagString then .error .invalidTag
    else .ok tagString
  else .ok ""

/-- Model of `Builder.AddField`. -/
def Builder.AddField (parse : String → Bool) (b : Builder) (name : String)
    (kind : InterfaceValue) (tags : List String) : MutResult × Builder :=
  if b.instance_.isSome then (.err .instanceAlreadyBuilt, b)
  else if (mapLookup b.fields name).isSome then (.err .fieldAlreadyExists, b)
  else
    match tagOf parse tags with
    | .error e => (.err e, b)
    | .ok tag =>
      (.ok, { b with fields := mapInsert b.fields name ⟨name, typeOf kind, tag, false⟩ })

/-- First-character normalization of the derived anonymous-field name:
an ASCII-lowercase first byte is upper-cased. -/
def upperFirst (s : String) : String :=
  match s.data with
  | [] => s
  | c :: cs => if 'a' ≤ c ∧ c ≤ 'z' then String.mk (c.toUpper :: cs) else s

/-- Display name the package derives for an anonymous field: the type
name when the type has one, else the kind string, normalized to start
with an upper-case letter. -/
def anonFieldName (t : GoType) : String :=
  upperFirst (if t.name = "" then t.kindString else t.name)

/-- Model of `Builder.AddAnonymousField`.  Calling it with the untyped nil
interface reaches `fieldTypeReflect.Name()` on a nil `reflect.Type` and
panics. -/
def Builder.AddAnonymousField (parse : String → Bool) (b : Builder)
    (fieldType : InterfaceValue) (tags : List String) : MutResult × Builder :=
  if b.instance_.isSome then (.err .instanceAlreadyBuilt, b)
  else
    let ftr := typeOf fieldType
    if b.anonymousFields.any (fun f => f.type = ftr) then
      (.err .anonymousFieldAlreadyExists, b)
    else
      match tagOf parse tags with
      | .error e => (.err e, b)
      | .ok tag =>
        match ftr with
        | none => (.panic_ "runtime error: invalid memory address or nil pointer dereference", b)
        | some t =>
          (.ok, { b with anonymousFields :=
            b.anonymousFields ++ [⟨anonFieldName t, some t, tag, true⟩] })

/-- Model of `Builder.RemoveField`. -/
def Builder.RemoveField (b : Builder) (name : String) : MutResult × Builder :=
  if b.instance_.isSome then (.err .instanceAlreadyBuilt, b)
  else (.ok, { b with fields := mapDelete b.fields name })

/-- Model of `Builder.buildStructFields`: anonymous fields first in
insertion order, then the named fields from the registry. -/
def Builder.buildStructFields (b : Builder) : List StructField :=
  b.anonymousFields ++ b.fields.map Prod.snd

/-- Model of the field-name validity test of `reflect.StructOf`
(ASCII letters, digits and underscore; Unicode letters beyond ASCII are
not modelled as no reachable call produces them). -/
def isLetterGo (c : Char) : Bool :=
  (('a' ≤ c ∧ c ≤ 'z') ∨ ('A' ≤ c ∧ c ≤ 'Z') ∨ c = '_' : Bool)

/-- Decimal-digit test used by the field-name validity test. -/
def isDigitGo (c : Char) : Bool := ('0' ≤ c ∧ c ≤ '9' : Bool)

/-- Model of `isValidFieldName` from `reflect.StructOf`: non-empty, first
character a letter or underscore, the rest letters, digits or
underscores. -/
def isValidFieldName (s : String) : Bool :=
  match s.data with
  | [] => false
  | c :: cs => isLetterGo c ∧ cs.all (fun d => isLetterGo d ∨ isDigitGo d)

/-- Model of the unexported-field test of `reflect.StructOf`: the package
never sets `PkgPath`, so a first byte in a-z or an underscore makes the
field unexported and `StructOf` panic. -/
def isUnexportedName (s : String) : Bool :=
  match s.data with
  | [] => false
  | c :: _ => (('a' ≤ c ∧ c ≤ 'z') ∨ c = '_' : Bool)

/-- Model of the validating loop of `reflect.StructOf`, specialized to
zero-value instantiation: each field descriptor is checked (non-empty
name, valid name, non-nil type, exported, not a duplicate of an earlier
field name) and turned into an instance field holding its type's zero
value.  A failed check is the panic `reflect.StructOf` raises. -/
def structOfAux : List StructField → List String → Nat → Except String (List InstField)
  | [], _, _ => .ok []
  | f :: fs, seen, i =>
    if f.name = "" then
      .error ("reflect.StructOf: field " ++ toString i ++ " has no name")
    else if ¬ isValidFieldName f.name then
      .error ("reflect.StructOf: field " ++ toString i ++ " has invalid name")
    else
      match f.type with
      | none => .error ("reflect.StructOf: field " ++ toString i ++ " has no type")
      | some t =>
        if isUnexportedName f.name then
          .error ("reflect.StructOf: field \"" ++ f.name ++
            "\" is unexported but missing PkgPath")
        else if f.name ∈ seen then
          .error ("reflect.StructOf: duplicate field " ++ f.name)
        else
          match structOfAux fs (f.name :: seen) (i + 1) with
          | .error msg => .error msg
          | .ok r => .ok (⟨f.name, t, f.tag, f.anonymous, goZero t⟩ :: r)

/-- Model of `reflect.StructOf` combined with `reflect.New(...).Elem()`:
either the zero-valued instance of the synthesized type, or the panic
message. -/
def structOf (fs : List StructField) : Except String (List InstField) :=
  structOfAux fs [] 0

/-- Model of `Builder.Build`. -/
def Builder.Build (b : Builder) : BuildResult × Builder :=
  if b.instance_.isSome then (.err .instanceAlreadyBuilt, b)
  else
    match structOf b.buildStructFields with
    | .error msg => (.panic_ msg, b)
    | .ok inst => (.ok inst, { b with instance_ := some inst })

/-- Model of `Builder.Reset`: drop the instance and the anonymous-field
sequence, keep the named-field registry. -/
def Builder.Reset (b : Builder) : Builder :=
  { b with instance_ := none, anonymousFields := [] }

/-- The `value any` argument of the value accessors, as `reflect.ValueOf`
classifies it: the untyped nil interface (kind Invalid), a non-pointer
value, a nil typed pointer, or a non-nil pointer with its current
pointee. -/
inductive OutArg : Type where
  | nilInterface
  | nonPointer (t : GoType)
  | nilPointer (elem : GoType)
  | pointer (elem : GoType) (pointee : GoValue)
deriving DecidableEq

/-- Model of `Builder.GetField`. -/
def Builder.GetField (b : Builder) (name : String) : Except GoErr GoValue :=
  match b.instance_ with
  | none => .error .instanceNotBuilt
  | some inst =>
    match inst.find? (fun f => f.name = name) with
    | none => .error .fieldNotFound
    | some f => .ok f.value

/-- Model of `Builder.GetFieldValue`: the returned pair is the Go error
(none for nil) together with the out-argument after the call, so that
non-mutation on failure is expressible. -/
def Builder.GetFieldValue (b : Builder) (name : String) (value : OutArg) :
    Option GoErr × OutArg :=
  match b.instance_ with
  | none => (some .instanceNotBuilt, value)
  | some inst =>
    match value with
    | .nilInterface => (some .valueMustBePointer, value)
    | .nonPointer _ => (some .valueMustBePointer, value)
    | .nilPointer _ => (some .valueCannotBeNil, value)
    | .pointer pt pv =>
      match inst.find? (fun f => f.name = name) with
      | none => (some .fieldNotFound, .pointer pt pv)
      | some f =>
        if f.type = pt then (none, .pointer pt f.value)
        else (some (.incompatibleTypes f.type.render pt.render), .pointer pt pv)

/-- Anonymous-field lookup shared by the two anonymous accessors: the
first instance field that is anonymous and whose type equals the queried
dynamic type (never found when the query is the untyped nil interface,
since a concrete field type is never the nil type). -/
def findAnon (inst : Instance) (ftr : Option GoType) : Option InstField :=
  inst.find? (fun f => f.anonymous ∧ some f.type = ftr)

/-- Model of `Builder.GetAnonymousField`. -/
def Builder.GetAnonymousField (b : Builder) (fieldType : InterfaceValue) :
    Except GoErr GoValue :=
  match b.instance_ with
  | none => .error .instanceNotBuilt
  | some inst =>
    match findAnon inst (typeOf fieldType) with
    | none => .error .anonymousFieldNotFound
    | some f => .ok f.value

/-- Model of `Builder.GetAnonymousFieldValue`. -/
def Builder.GetAnonymousFieldValue (b : Builder) (fieldType : InterfaceValue)
    (value : OutArg) : Option GoErr × OutArg :=
  match b.instance_ with
  | none => (some .instanceNotBuilt, value)
  | some inst =>
    match value with
    | .nilInterface => (some .valueMustBePointer, value)
    | .nonPointer _ => (some .valueMustBePointer, value)
    | .nilPointer _ => (some .valueCannotBeNil, value)
    | .pointer pt pv =>
      match findAnon inst (typeOf fieldType) with
      | none => (some .anonymousFieldNotFound, .pointer pt pv)
      | some f =>
        if f.type = pt then (none, .pointer pt f.value)
        else (some (.incompatibleTypes f.type.render pt.render), .pointer pt pv)

/-- Correspondence between a declared field descriptor and the
instance field that a successful `reflect.StructOf` run produces for it:
same name, tag and anonymous flag, the declared (non-nil) type, and the
type's zero value. -/
def fieldRel (sf : StructField) (f : InstField) : Prop :=
  f.name = sf.name ∧ sf.type = some f.type ∧ f.tag = sf.tag ∧
    f.anonymous = sf.anonymous ∧ f.value = goZero f.type

/-- A tag validator accepting every tag string, standing in for
`structtag.Parse` succeeding (used to instantiate universally quantified
theorems on concrete inputs). -/
def acceptAllTags : String → Bool := fun _ => true

/-- A tag validator rejecting every tag string, standing in for
`structtag.Parse` failing. -/
def rejectAllTags : String → Bool := fun _ => false

/-- A concrete `any` argument of dynamic type int holding 0. -/
def intSample : InterfaceValue := some (.int, .intV 0)

/-- A concrete `any` argument of dynamic type string holding the empty
string. -/
def stringSample : InterfaceValue := some (.string, .stringV "")

/-- A concrete open builder with one declared named field Age of type
int. -/
def ageBuilder : Builder := (Builder.AddField acceptAllTags New "Age" intSample []).2

/-- A concrete `any` argument of dynamic type bool holding false. -/
def boolSample : InterfaceValue := some (.bool, .boolV false)

/-- A concrete open builder declaring a regular field Name and then two
anonymous fields, of types int and bool, in that order. -/
def orderBuilder : Builder :=
  (Builder.AddAnonymousField acceptAllTags
    (Builder.AddAnonymousField acceptAllTags
      (Builder.AddField acceptAllTags New "Name" stringSample []).2
      intSample []).2
    boolSample []).2

theorem mapLookup_insert_self (m : List (String × StructField)) (k : String)
    (v : StructField) : mapLookup (mapInsert m k v) k = some v := by
  induction m with
  | nil => simp [mapInsert, mapLookup]
  | cons kv rest ih =>
    by_cases hk : kv.1 = k
    · simp [mapInsert, mapLookup, hk]
    · simp [mapInsert, mapLookup, hk, ih]

theorem mapInsert_of_lookup_none (m : List (String × StructField)) (k : String)
    (v : StructField) (h : mapLookup m k = none) : mapInsert m k v = m ++ [(k, v)] := by
  induction m with
  | nil => simp [mapInsert]
  | cons kv rest ih =>
    by_cases hk : kv.1 = k
    · simp [mapLookup, hk] at h
    · simp only [mapLookup, hk, if_neg] at h
      simp [mapInsert, hk, ih h]

theorem mapLookup_delete_self (m : List (String × StructField)) (k : String) :
    mapLookup (mapDelete m k) k = none := by
  induction m with
  | nil => simp [mapDelete, mapLookup]
  | cons kv rest ih =>
    by_cases hk : kv.1 = k
    · simpa [mapDelete, hk] using ih
    · simpa [mapDelete, mapLookup, hk] using ih

theorem structOfAux_mono (fs : List StructField) :
    ∀ (seen seen' : List String) (i j : Nat) (r : List InstField),
      (∀ n, n ∈ seen → n ∈ seen') →
      structOfAux fs seen' j = .ok r → structOfAux fs seen i = .ok r := by
  induction fs with
  | nil => intro seen seen' i j r _ h; simpa [structOfAux] using h
  | cons f fs ih =>
    intro seen seen' i j r hsub h
    by_cases h1 : f.name = ""
    · simp [structOfAux, h1] at h
    · by_cases h2 : isValidFieldName f.name = true
      · cases ht : f.type with
        | none => simp [structOfAux, h1, h2, ht] at h
        | some t =>
          by_cases h3 : isUnexportedName f.name = true
          · simp [structOfAux, h1, h2, ht, h3] at h
          · by_cases h4 : f.name ∈ seen'
            · simp [structOfAux, h1, h2, ht, h3, h4] at h
            · have h5 : f.name ∉ seen := fun hx => h4 (hsub _ hx)
              cases hrec : structOfAux fs (f.name :: seen') (j + 1) with
              | error msg => simp [structOfAux, h1, h2, ht, h3, h4, hrec] at h
              | ok r₀ =>
                have hrec₂ : structOfAux fs (f.name :: seen) (i + 1) = .ok r₀ := by
                  refine ih _ _ _ _ _ ?_ hrec
                  intro n hn
                  rcases List.mem_cons.mp hn with hn | hn
                  · exact List.mem_cons.mpr (Or.inl hn)
                  · exact List.mem_cons.mpr (Or.inr (hsub _ hn))
                simp only [structOfAux, h1, h2, ht, h3, h4, h5, hrec, hrec₂,
                  if_neg, if_pos, not_false_eq_true, ite_false, ite_true] at h ⊢
                simpa using h
      · simp [structOfAux, h1, h2] at h

theorem structOfAux_forall₂ (fs : List StructField) :
    ∀ (seen : List String) (i : Nat) (r : List InstField),
      structOfAux fs seen i = .ok r → List.Forall₂ fieldRel fs r := by
  induction fs with
  | nil =>
    intro seen i r h
    simp only [structOfAux] at h
    cases h
    exact List.Forall₂.nil
  | cons f fs ih =>
    intro seen i r h
    by_cases h1 : f.name = ""
    · simp [structOfAux, h1] at h
    · by_cases h2 : isValidFieldName f.name = true
      · cases ht : f.type with
        | none => simp [structOfAux, h1, h2, ht] at h
        | some t =>
          by_cases h3 : isUnexportedName f.name = true
          · simp [structOfAux, h1, h2, ht, h3] at h
          · by_cases h4 : f.name ∈ seen
            · simp [structOfAux, h1, h2, ht, h3, h4] at h
            · cases hrec : structOfAux fs (f.name :: seen) (i + 1) with
              | error msg => simp [structOfAux, h1, h2, ht, h3, h4, hrec] at h
              | ok r₀ =>
                simp [structOfAux, h1, h2, ht, h3, h4, hrec] at h
                subst h
                exact List.Forall₂.cons ⟨rfl, ht, rfl, rfl, rfl⟩ (ih _ _ _ hrec)
      · simp [structOfAux, h1, h2] at h

theorem structOfAux_nodup (fs : List StructField) :
    ∀ (seen : List String) (i : Nat) (r : List InstField),
      structOfAux fs seen i = .ok r →
      (∀ n ∈ seen, n ∉ fs.map StructField.name) ∧ (fs.map StructField.name).Nodup := by
  induction fs with
  | nil => intro seen i r _; simp
  | cons f fs ih =>
    intro seen i r h
    by_cases h1 : f.name = ""
    · simp [structOfAux, h1] at h
    · by_cases h2 : isValidFieldName f.name = true
      · cases ht : f.type with
        | none => simp [structOfAux, h1, h2, ht] at h
        | some t =>
          by_cases h3 : isUnexportedName f.name = true
          · simp [structOfAux, h1, h2, ht, h3] at h
          · by_cases h4 : f.name ∈ seen
            · simp [structOfAux, h1, h2, ht, h3, h4] at h
            · cases hrec : structOfAux fs (f.name :: seen) (i + 1) with
              | error msg => simp [structOfAux, h1, h2, ht, h3, h4, hrec] at h
              | ok r₀ =>
                obtain ⟨hseen, hnodup⟩ := ih _ _ _ hrec
                have hf : f.name ∉ fs.map StructField.name :=
                  hseen f.name (List.mem_cons_self _ _)
                refine ⟨?_, ?_⟩
                · intro n hn
                  have hn' : n ∈ f.name :: seen := List.mem_cons.mpr (Or.inr hn)
                  intro hmem
                  rcases List.mem_cons.mp hmem with hx | hx
                  · exact h4 (hx ▸ hn)
                  · exact hseen n hn' hx
                · exact List.nodup_cons.mpr ⟨hf, hnodup⟩
      · simp [structOfAux, h1, h2] at h

theorem structOfAux_append_ok (xs : List StructField) :
    ∀ (ys : List StructField) (seen : List String) (i : Nat) (r : List InstField),
      structOfAux (xs ++ ys) seen i = .ok r →
      ∃ rx ry seen' j, r = rx ++ ry ∧ structOfAux xs seen i = .ok rx ∧
        structOfAux ys seen' j = .ok ry ∧ (∀ n, n ∈ seen → n ∈ seen') := by
  induction xs with
  | nil =>
    intro ys seen i r h
    exact ⟨[], r, seen, i, rfl, rfl, h, fun n hn => hn⟩
  | cons f xs ih =>
    intro ys seen i r h
    by_cases h1 : f.name = ""
    · simp [structOfAux, h1] at h
    · by_cases h2 : isValidFieldName f.name = true
      · cases ht : f.type with
        | none => simp [structOfAux, h1, h2, ht] at h
        | some t =>
          by_cases h3 : isUnexportedName f.name = true
          · simp [structOfAux, h1, h2, ht, h3] at h
          · by_cases h4 : f.name ∈ seen
            · simp [structOfAux, h1, h2, ht, h3, h4] at h
            · cases hrec : structOfAux (xs ++ ys) (f.name :: seen) (i + 1) with
              | error msg => simp [structOfAux, h1, h2, ht, h3, h4, hrec] at h
              | ok r₀ =>
                simp [structOfAux, h1, h2, ht, h3, h4, hrec] at h
                subst h
                obtain ⟨rx, ry, seen', j, hr, hx, hy, hsub⟩ := ih ys _ _ _ hrec
                refine ⟨⟨f.name, t, f.tag, f.anonymous, goZero t⟩ :: rx, ry, seen', j, by
                  rw [hr]; rfl, ?_, hy, ?_⟩
                · simp [structOfAux, h1, h2, ht, h3, h4, hx]
                · intro n hn
                  exact hsub n (List.mem_cons.mpr (Or.inr hn))
      · simp [structOfAux, h1, h2] at h

theorem forall₂_mem_right {R : StructField → InstField → Prop}
    (l₁ : List StructField) (l₂ : List InstField) (h : List.Forall₂ R l₁ l₂) :
    ∀ y ∈ l₂, ∃ x ∈ l₁, R x y := by
  induction h with
  | nil => intro y hy; cases hy
  | cons hxy _ ih =>
    intro y hy
    rcases List.mem_cons.mp hy with rfl | hy
    · exact ⟨_, List.mem_cons_self _ _, hxy⟩
    · obtain ⟨x, hx, hr⟩ := ih y hy
      exact ⟨x, List.mem_cons.mpr (Or.inr hx), hr⟩

theorem forall₂_find? (fs : List StructField) (r : List InstField)
    (h : List.Forall₂ fieldRel fs r) :
    ∀ (sf : StructField) (t : GoType), sf ∈ fs → (fs.map StructField.name).Nodup →
      sf.type = some t →
      r.find? (fun f => f.name = sf.name) =
        some ⟨sf.name, t, sf.tag, sf.anonymous, goZero t⟩ := by
  induction h with
  | nil => intro sf t hmem _ _; cases hmem
  | @cons x y fs' r' hxy htail ih =>
    intro sf t hmem hnodup hty
    rcases List.mem_cons.mp hmem with rfl | hmem
    · have hname : y.name = sf.name := hxy.1
      have hty' : some y.type = some t := hxy.2.1 ▸ hty
      have htyeq : y.type = t := by injection hty'
      have : y = ⟨sf.name, t, sf.tag, sf.anonymous, goZero t⟩ := by
        obtain ⟨n, ty, tg, an, v⟩ := y
        obtain ⟨e1, _, e3, e4, e5⟩ := hxy
        simp only at e1 e3 e4 e5 htyeq
        simp only at hname
        subst e1 e3 e4 htyeq
        simp_all
      rw [List.find?_cons_of_pos _ (by simp [hname])]
      rw [this]
    · have hxname : x.name ∉ fs'.map StructField.name :=
        (List.nodup_cons.mp hnodup).1
      have hsfname : sf.name ∈ fs'.map StructField.name :=
        List.mem_map.mpr ⟨sf, hmem, rfl⟩
      have hne : x.name ≠ sf.name := fun he => hxname (he ▸ hsfname)
      have hyne : ¬ (y.name = sf.name) := by rw [hxy.1]; exact hne
      rw [List.find?_cons_of_neg _ (by simp [hyne])]
      exact ih sf t hmem (List.nodup_cons.mp hnodup).2 hty

theorem tagOf_ok (parse : String → Bool) (tags : List String)
    (h : String.intercalate " " tags = "" ∨ parse (String.intercalate " " tags) = true) :
    ∃ s, tagOf parse tags = .ok s := by
  unfold tagOf
  by_cases hl : tags.length > 0
  · rcases h with h | h
    · exact ⟨String.intercalate " " tags, by simp [hl, h]⟩
    · exact ⟨String.intercalate " " tags, by simp [hl, h]⟩
  · exact ⟨"", by simp [hl]⟩

/-- C1: on a builder holding a built instance (Build succeeded, no Reset
since), each mutation method (AddField, RemoveField, AddAnonymousField)
fails with InstanceAlreadyBuilt and returns the builder completely
unchanged, so the named-field registry and the anonymous-field sequence
are untouched. -/
theorem claim_C1_mutation_fails_after_build (parse : String → Bool) (b : Builder)
    (inst : Instance) (name : String) (kind ft : InterfaceValue) (tags : List String)
    (h : b.instance_ = some inst) :
    Builder.AddField parse b name kind tags = (.err .instanceAlreadyBuilt, b) ∧
    b.RemoveField name = (.err .instanceAlreadyBuilt, b) ∧
    Builder.AddAnonymousField parse b ft tags = (.err .instanceAlreadyBuilt, b) := by
  refine ⟨?_, ?_, ?_⟩ <;>
    simp [Builder.AddField, Builder.RemoveField, Builder.AddAnonymousField, h]

/-- Witness for C1 at a concrete built builder. -/
theorem claim_C1_witness :
    ((New.Build).2).instance_ = some [] ∧
    Builder.AddField acceptAllTags (New.Build).2 "A" intSample [] =
      (.err .instanceAlreadyBuilt, (New.Build).2) ∧
    Builder.RemoveField (New.Build).2 "A" = (.err .instanceAlreadyBuilt, (New.Build).2) ∧
    Builder.AddAnonymousField acceptAllTags (New.Build).2 intSample [] =
      (.err .instanceAlreadyBuilt, (New.Build).2) :=
  ⟨by decide,
    claim_C1_mutation_fails_after_build acceptAllTags (New.Build).2 [] "A"
      intSample intSample [] (by decide)⟩

/-- C2: a second Build without an intervening Reset fails with
InstanceAlreadyBuilt, returns the builder unchanged, and the instance
created by the first Build is still held. -/
theorem claim_C2_second_build_fails (b b₁ : Builder) (inst : Instance)
    (h : b.Build = (.ok inst, b₁)) :
    b₁.Build = (.err .instanceAlreadyBuilt, b₁) ∧ b₁.instance_ = some inst := by
  unfold Builder.Build at h
  by_cases hb : b.instance_.isSome
  · simp [hb] at h
  · cases hso : structOf b.buildStructFields with
    | error msg => simp [hb, hso] at h
    | ok inst₀ =>
      simp [hb, hso] at h
      obtain ⟨h1, h2⟩ := h
      subst h1
      subst h2
      constructor
      · simp [Builder.Build]
      · rfl

/-- Witness for C2 at the empty builder, whose Build succeeds with the
zero-field instance. -/
theorem claim_C2_witness :
    Builder.Build (New.Build).2 = (.err .instanceAlreadyBuilt, (New.Build).2) ∧
    ((New.Build).2).instance_ = some [] :=
  claim_C2_second_build_fails New (New.Build).2 [] (by decide)

/-- C9: on a built builder, passing the untyped nil interface as the out
argument of GetFieldValue or GetAnonymousFieldValue fails with
ValueMustBePointer (its reflect kind is Invalid, not Ptr), a nil value of
a concrete pointer type fails with ValueCannotBeNil, and ValueCannotBeNil
arises only for a nil typed pointer. -/
theorem claim_C9_nil_out_classification (b : Builder) (inst : Instance)
    (name : String) (ft : InterfaceValue) (out : OutArg) (pt : GoType)
    (h : b.instance_ = some inst) :
    (b.GetFieldValue name .nilInterface).1 = some .valueMustBePointer ∧
    (b.GetAnonymousFieldValue ft .nilInterface).1 = some .valueMustBePointer ∧
    (b.GetFieldValue name (.nilPointer pt)).1 = some .valueCannotBeNil ∧
    (b.GetAnonymousFieldValue ft (.nilPointer pt)).1 = some .valueCannotBeNil ∧
    ((b.GetFieldValue name out).1 = some .valueCannotBeNil → ∃ t, out = .nilPointer t) ∧
    ((b.GetAnonymousFieldValue ft out).1 = some .valueCannotBeNil →
      ∃ t, out = .nilPointer t) := by
  refine ⟨by simp [Builder.GetFieldValue, h], by simp [Builder.GetAnonymousFieldValue, h],
    by simp [Builder.GetFieldValue, h], by simp [Builder.GetAnonymousFieldValue, h], ?_, ?_⟩
  · intro hc
    cases out with
    | nilInterface => simp [Builder.GetFieldValue, h] at hc
    | nonPointer t => simp [Builder.GetFieldValue, h] at hc
    | nilPointer t => exact ⟨t, rfl⟩
    | pointer pt₀ pv =>
      exfalso
      cases hf : inst.find? (fun f => f.name = name) with
      | none => simp [Builder.GetFieldValue, h, hf] at hc
      | some f =>
        by_cases hft : f.type = pt₀ <;> simp [Builder.GetFieldValue, h, hf, hft] at hc
  · intro hc
    cases out with
    | nilInterface => simp [Builder.GetAnonymousFieldValue, h] at hc
    | nonPointer t => simp [Builder.GetAnonymousFieldValue, h] at hc
    | nilPointer t => exact ⟨t, rfl⟩
    | pointer pt₀ pv =>
      exfalso
      cases hf : findAnon inst (typeOf ft) with
      | none => simp [Builder.GetAnonymousFieldValue, h, hf] at hc
      | some f =>
        by_cases hft : f.type = pt₀ <;>
          simp [Builder.GetAnonymousFieldValue, h, hf, hft] at hc

/-- Witness for C9 at a concrete built builder and a concrete non-pointer
out argument. -/
theorem claim_C9_witness :
    (Builder.GetFieldValue (New.Build).2 "A" .nilInterface).1 =
      some .valueMustBePointer ∧
    (Builder.GetAnonymousFieldValue (New.Build).2 intSample .nilInterface).1 =
      some .valueMustBePointer ∧
    (Builder.GetFieldValue (New.Build).2 "A" (.nilPointer .int)).1 =
      some .valueCannotBeNil ∧
    (Builder.GetAnonymousFieldValue (New.Build).2 intSample (.nilPointer .int)).1 =
      some .valueCannotBeNil :=
  have h := claim_C9_nil_out_classification (New.Build).2 [] "A" intSample
    (.nonPointer .int) .int (by decide)
  ⟨h.1, h.2.1, h.2.2.1, h.2.2.2.1⟩

/-- C10: AddField validates neither the name nor the sample type: a nil
sample, an empty name, a lowercase name, and a named field colliding with
an anonymous field's derived name are all accepted while Open, and the
subsequent Build panics inside the struct-synthesis step instead of
returning an error. -/
theorem claim_C10_build_panics_on_unvalidated_fields :
    ((New.AddField acceptAllTags "X" none []).1 = .ok ∧
      ((New.AddField acceptAllTags "X" none []).2.Build).1 =
        .panic_ "reflect.StructOf: field 0 has no type") ∧
    ((New.AddField acceptAllTags "" intSample []).1 = .ok ∧
      ((New.AddField acceptAllTags "" intSample []).2.Build).1 =
        .panic_ "reflect.StructOf: field 0 has no name") ∧
    ((New.AddField acceptAllTags "age" intSample []).1 = .ok ∧
      ((New.AddField acceptAllTags "age" intSample []).2.Build).1 =
        .panic_ "reflect.StructOf: field \"age\" is unexported but missing PkgPath") ∧
    ((New.AddAnonymousField acceptAllTags intSample []).1 = .ok ∧
      (((New.AddAnonymousField acceptAllTags intSample []).2.AddField
        acceptAllTags "Int" intSample []).1 = .ok) ∧
      ((((New.AddAnonymousField acceptAllTags intSample []).2.AddField
        acceptAllTags "Int" intSample []).2).Build).1 =
        .panic_ "reflect.StructOf: duplicate field Int") := by
  decide

/-- C6: on a built builder, GetFieldValue with a non-nil typed pointer at
a field present in the synthesized type succeeds and copies the field's
current value into the pointee exactly when the pointee's static type is
identical to the field's type; on a mismatch it fails with an error
wrapping IncompatibleTypes carrying both rendered type names and leaves
the pointee unchanged. -/
theorem claim_C6_get_field_value_type_identity (b : Builder) (inst : Instance)
    (name : String) (f : InstField) (pt : GoType) (pv : GoValue)
    (hb : b.instance_ = some inst)
    (hf : inst.find? (fun g => g.name = name) = some f) :
    (pt = f.type → b.GetFieldValue name (.pointer pt pv) = (none, .pointer pt f.value)) ∧
    (pt ≠ f.type →
      b.GetFieldValue name (.pointer pt pv) =
        (some (.incompatibleTypes f.type.render pt.render), .pointer pt pv)) := by
  constructor
  · intro he
    subst he
    simp [Builder.GetFieldValue, hb, hf]
  · intro hne
    have hne' : ¬ (f.type = pt) := fun he => hne he.symm
    simp [Builder.GetFieldValue, hb, hf, hne']

/-- Witness for C6 at a built builder with an int field Age and a string
out pointer. -/
theorem claim_C6_witness :
    ((GoType.string = GoType.int →
      Builder.GetFieldValue (ageBuilder.Build).2 "Age" (.pointer .string (.stringV "x")) =
        (none, .pointer .string (GoValue.intV 0))) ∧
    (GoType.string ≠ GoType.int →
      Builder.GetFieldValue (ageBuilder.Build).2 "Age" (.pointer .string (.stringV "x")) =
        (some (.incompatibleTypes "int" "string"), .pointer .string (.stringV "x")))) :=
  claim_C6_get_field_value_type_identity (ageBuilder.Build).2
    [⟨"Age", .int, "", false, .intV 0⟩] "Age" ⟨"Age", .int, "", false, .intV 0⟩
    .string (.stringV "x") (by decide) (by decide)

/-- C7: on an Open builder where the name (for AddField) and the type
(for AddAnonymousField) are fresh, supplying tag fragments whose
space-join is non-empty and rejected by the tag-grammar parser makes the
call fail with InvalidTag and leaves the builder exactly as before, while
an empty tag list or a single empty-string tag is accepted and adds an
untagged field. -/
theorem claim_C7_tag_validation (parse : String → Bool) (b : Builder) (name : String)
    (kind : InterfaceValue) (badTags : List String)
    (hOpen : b.instance_ = none)
    (hFresh : mapLookup b.fields name = none)
    (hAnonFresh : b.anonymousFields.any (fun f => f.type = typeOf kind) = false)
    (hne : String.intercalate " " badTags ≠ "")
    (hrej : parse (String.intercalate " " badTags) = false) :
    Builder.AddField parse b name kind badTags = (.err .invalidTag, b) ∧
    Builder.AddAnonymousField parse b kind badTags = (.err .invalidTag, b) ∧
    Builder.AddField parse b name kind [] =
      (.ok, { b with fields := mapInsert b.fields name ⟨name, typeOf kind, "", false⟩ }) ∧
    Builder.AddField parse b name kind [""] =
      (.ok, { b with fields := mapInsert b.fields name ⟨name, typeOf kind, "", false⟩ }) ∧
    (∀ t, typeOf kind = some t →
      Builder.AddAnonymousField parse b kind [] =
        (.ok, { b with anonymousFields :=
          b.anonymousFields ++ [⟨anonFieldName t, some t, "", true⟩] }) ∧
      Builder.AddAnonymousField parse b kind [""] =
        (.ok, { b with anonymousFields :=
          b.anonymousFields ++ [⟨anonFieldName t, some t, "", true⟩] })) := by
  have hnil : badTags ≠ [] := by
    intro he
    subst he
    exact hne rfl
  have hlen : badTags.length > 0 := List.length_pos.mpr hnil
  have htagBad : tagOf parse badTags = .error .invalidTag := by
    simp [tagOf, hlen, hne, hrej]
  have htag0 : tagOf parse [] = .ok "" := rfl
  have htag1 : tagOf parse [""] = .ok "" := rfl
  refine ⟨?_, ?_, ?_, ?_, ?_⟩
  · simp [Builder.AddField, hOpen, hFresh, htagBad]
  · simp [Builder.AddAnonymousField, hOpen, hAnonFresh, htagBad]
  · simp [Builder.AddField, hOpen, hFresh, htag0]
  · simp [Builder.AddField, hOpen, hFresh, htag1]
  · intro t ht
    rw [ht] at hAnonFresh
    constructor
    · simp [Builder.AddAnonymousField, hOpen, hAnonFresh, htag0, ht]
    · simp [Builder.AddAnonymousField, hOpen, hAnonFresh, htag1, ht]

/-- Witness for C7 at the empty builder with a rejecting parser and a
concrete non-empty tag list. -/
theorem claim_C7_witness :
    Builder.AddField rejectAllTags New "A" intSample ["x"] = (.err .invalidTag, New) ∧
    Builder.AddAnonymousField rejectAllTags New intSample ["x"] =
      (.err .invalidTag, New) ∧
    Builder.AddField rejectAllTags New "A" intSample [] =
      (.ok, { New with fields := mapInsert New.fields "A" ⟨"A", typeOf intSample, "", false⟩ }) ∧
    Builder.AddField rejectAllTags New "A" intSample [""] =
      (.ok, { New with fields := mapInsert New.fields "A" ⟨"A", typeOf intSample, "", false⟩ }) ∧
    Builder.AddAnonymousField rejectAllTags New intSample [] =
      (.ok, { New with anonymousFields :=
        New.anonymousFields ++ [⟨anonFieldName .int, some .int, "", true⟩] }) ∧
    Builder.AddAnonymousField rejectAllTags New intSample [""] =
      (.ok, { New with anonymousFields :=
        New.anonymousFields ++ [⟨anonFieldName .int, some .int, "", true⟩] }) :=
  have h := claim_C7_tag_validation rejectAllTags New "A" intSample ["x"]
    (by decide) (by decide) (by decide) (by decide) (by decide)
  ⟨h.1, h.2.1, h.2.2.1, h.2.2.2.1, (h.2.2.2.2 .int rfl).1, (h.2.2.2.2 .int rfl).2⟩

/-- C8: after AddField(n, v) succeeds, a second AddField with the same
name while still Open fails with FieldAlreadyExists and changes nothing;
after RemoveField(n), an AddField with that name succeeds again (shown
for any tag list that joins empty or passes the parser). -/
theorem claim_C8_duplicate_name (parse parse₂ parse₃ : String → Bool) (b b₁ : Builder)
    (n : String) (v v₂ v₃ : InterfaceValue) (tags tags₂ tags₃ : List String)
    (hAdd : Builder.AddField parse b n v tags = (.ok, b₁)) :
    Builder.AddField parse₂ b₁ n v₂ tags₂ = (.err .fieldAlreadyExists, b₁) ∧
    (b₁.RemoveField n).1 = .ok ∧
    (String.intercalate " " tags₃ = "" ∨ parse₃ (String.intercalate " " tags₃) = true →
      (Builder.AddField parse₃ (b₁.RemoveField n).2 n v₃ tags₃).1 = .ok) := by
  unfold Builder.AddField at hAdd
  by_cases hb : b.instance_.isSome
  · simp [hb] at hAdd
  · by_cases hl : (mapLookup b.fields n).isSome
    · simp [hb, hl] at hAdd
    · cases htag : tagOf parse tags with
      | error e => simp [hb, hl, htag] at hAdd
      | ok tg =>
        simp [hb, hl, htag] at hAdd
        subst hAdd
        refine ⟨?_, ?_, ?_⟩
        · simp [Builder.AddField, hb, mapLookup_insert_self]
        · simp [Builder.RemoveField, hb]
        · intro htags₃
          obtain ⟨s, hs⟩ := tagOf_ok parse₃ tags₃ htags₃
          simp [Builder.AddField, Builder.RemoveField, hb, mapLookup_delete_self, hs]

/-- Witness for C8 at the concrete one-field builder. -/
theorem claim_C8_witness :
    Builder.AddField acceptAllTags ageBuilder "Age" stringSample [] =
      (.err .fieldAlreadyExists, ageBuilder) ∧
    (ageBuilder.RemoveField "Age").1 = .ok ∧
    (String.intercalate " " [] = "" ∨ acceptAllTags (String.intercalate " " []) = true →
      (Builder.AddField acceptAllTags (ageBuilder.RemoveField "Age").2 "Age"
        stringSample []).1 = .ok) :=
  claim_C8_duplicate_name acceptAllTags acceptAllTags acceptAllTags New ageBuilder
    "Age" intSample stringSample stringSample [] [] [] (by decide)

/-- C3: Reset is total in every state; it drops the instance and clears
the anonymous-field sequence while leaving the named-field registry
untouched, and after a successful Build a Reset followed by Build
succeeds again, synthesizing from exactly the previously declared named
fields with no anonymous fields. -/
theorem claim_C3_reset_frame (b : Builder) :
    (b.Reset).fields = b.fields ∧ (b.Reset).instance_ = none ∧
    (b.Reset).anonymousFields = [] ∧
    (∀ inst b₁, b.Build = (.ok inst, b₁) →
      ∃ inst₂, (Builder.Build (b₁.Reset)).1 = .ok inst₂ ∧
        structOf (b.fields.map Prod.snd) = .ok inst₂) := by
  refine ⟨rfl, rfl, rfl, ?_⟩
  intro inst b₁ hBuild
  unfold Builder.Build at hBuild
  by_cases hb : b.instance_.isSome
  · simp [hb] at hBuild
  · cases hso : structOf b.buildStructFields with
    | error msg => simp [hb, hso] at hBuild
    | ok inst₀ =>
      simp [hb, hso] at hBuild
      obtain ⟨h1, h2⟩ := hBuild
      subst h1
      subst h2
      have hso' : structOfAux (b.anonymousFields ++ b.fields.map Prod.snd) [] 0 =
          .ok inst₀ := hso
      obtain ⟨rx, ry, seen', j, hr, hx, hy, hsub⟩ :=
        structOfAux_append_ok _ _ _ _ _ hso'
      have hy0 : structOfAux (b.fields.map Prod.snd) [] 0 = .ok ry :=
        structOfAux_mono _ [] seen' 0 j ry
          (fun n hn => absurd hn (List.not_mem_nil n)) hy
      refine ⟨ry, ?_, hy0⟩
      simp [Builder.Build, Builder.Reset, Builder.buildStructFields, structOf, hy0]

/-- Witness for C3 at the concrete one-field builder (whose Build
succeeds, so the inner implication is exercised). -/
theorem claim_C3_witness :
    (ageBuilder.Reset).fields = ageBuilder.fields ∧
    (ageBuilder.Reset).instance_ = none ∧
    (ageBuilder.Reset).anonymousFields = [] ∧
    (∃ inst₂, (Builder.Build ((ageBuilder.Build).2.Reset)).1 = .ok inst₂ ∧
      structOf (ageBuilder.fields.map Prod.snd) = .ok inst₂) :=
  have h := claim_C3_reset_frame ageBuilder
  ⟨h.1, h.2.1, h.2.2.1,
    h.2.2.2 [⟨"Age", .int, "", false, .intV 0⟩] (ageBuilder.Build).2 (by decide)⟩

/-- C4: when Build succeeds on a builder whose anonymous-field sequence
is flagged anonymous and whose registry entries are not, the synthesized
instance is the anonymous fields, in their declaration order, followed by
the named fields. -/
theorem claim_C4_anonymous_fields_first (b b₁ : Builder) (inst : Instance)
    (hanon : ∀ f ∈ b.anonymousFields, f.anonymous = true)
    (hnamed : ∀ kv ∈ b.fields, (Prod.snd kv).anonymous = false)
    (hBuild : b.Build = (.ok inst, b₁)) :
    ∃ ia iNamed, inst = ia ++ iNamed ∧
      List.Forall₂ fieldRel b.anonymousFields ia ∧
      List.Forall₂ fieldRel (b.fields.map Prod.snd) iNamed ∧
      (∀ f ∈ ia, f.anonymous = true) ∧ (∀ f ∈ iNamed, f.anonymous = false) := by
  unfold Builder.Build at hBuild
  by_cases hb : b.instance_.isSome
  · simp [hb] at hBuild
  · cases hso : structOf b.buildStructFields with
    | error msg => simp [hb, hso] at hBuild
    | ok inst₀ =>
      simp [hb, hso] at hBuild
      obtain ⟨h1, h2⟩ := hBuild
      subst h1
      have hso' : structOfAux (b.anonymousFields ++ b.fields.map Prod.snd) [] 0 =
          .ok inst₀ := hso
      obtain ⟨rx, ry, seen', j, hr, hx, hy, -⟩ := structOfAux_append_ok _ _ _ _ _ hso'
      refine ⟨rx, ry, hr, structOfAux_forall₂ _ _ _ _ hx,
        structOfAux_forall₂ _ _ _ _ hy, ?_, ?_⟩
      · intro f hf
        obtain ⟨x, hxmem, hrel⟩ :=
          forall₂_mem_right _ _ (structOfAux_forall₂ _ _ _ _ hx) f hf
        rw [hrel.2.2.2.1]
        exact hanon x hxmem
      · intro f hf
        obtain ⟨x, hxmem, hrel⟩ :=
          forall₂_mem_right _ _ (structOfAux_forall₂ _ _ _ _ hy) f hf
        rw [hrel.2.2.2.1]
        obtain ⟨kv, hkv, hkveq⟩ := List.mem_map.mp hxmem
        rw [← hkveq]
        exact hnamed kv hkv

/-- Witness for C4 at the builder declaring Name then two anonymous
types (int, then bool). -/
theorem claim_C4_witness :
    ∃ ia iNamed,
      ([⟨"Int", .int, "", true, .intV 0⟩, ⟨"Bool", .bool, "", true, .boolV false⟩,
        ⟨"Name", .string, "", false, .stringV ""⟩] : Instance) = ia ++ iNamed ∧
      List.Forall₂ fieldRel orderBuilder.anonymousFields ia ∧
      List.Forall₂ fieldRel (orderBuilder.fields.map Prod.snd) iNamed ∧
      (∀ f ∈ ia, f.anonymous = true) ∧ (∀ f ∈ iNamed, f.anonymous = false) :=
  claim_C4_anonymous_fields_first orderBuilder (orderBuilder.Build).2
    [⟨"Int", .int, "", true, .intV 0⟩, ⟨"Bool", .bool, "", true, .boolV false⟩,
      ⟨"Name", .string, "", false, .stringV ""⟩]
    (by decide) (by decide) (by decide)

/-- C5: a field declared by a successful AddField holds, after Build, the
zero value of the sample value's runtime type rather than the sample's
content: GetField returns that zero value and GetFieldValue with a
matching typed pointer stores it into the pointee. -/
theorem claim_C5_field_starts_at_zero (parse : String → Bool) (b b₁ b₂ : Builder)
    (name : String) (kind : InterfaceValue) (tags : List String) (inst : Instance)
    (t : GoType)
    (hAdd : Builder.AddField parse b name kind tags = (.ok, b₁))
    (hBuild : b₁.Build = (.ok inst, b₂))
    (ht : typeOf kind = some t) :
    b₂.GetField name = .ok (goZero t) ∧
    ∀ pv, b₂.GetFieldValue name (.pointer t pv) = (none, .pointer t (goZero t)) := by
  unfold Builder.AddField at hAdd
  by_cases hb : b.instance_.isSome
  · simp [hb] at hAdd
  · by_cases hl : (mapLookup b.fields name).isSome
    · simp [hb, hl] at hAdd
    · cases htag : tagOf parse tags with
      | error e => simp [hb, hl, htag] at hAdd
      | ok tg =>
        simp [hb, hl, htag] at hAdd
        subst hAdd
        have hnone : mapLookup b.fields name = none :=
          Option.not_isSome_iff_eq_none.mp hl
        have hins : mapInsert b.fields name ⟨name, typeOf kind, tg, false⟩ =
            b.fields ++ [(name, ⟨name, typeOf kind, tg, false⟩)] :=
          mapInsert_of_lookup_none _ _ _ hnone
        unfold Builder.Build at hBuild
        simp only [hins] at hBuild
        by_cases hb₁ :
            (Builder.instance_ { b with
              fields := b.fields ++ [(name, ⟨name, typeOf kind, tg, false⟩)] }).isSome
        · exact absurd hb₁ (by simpa using hb)
        · cases hso : structOf (Builder.buildStructFields { b with
              fields := b.fields ++ [(name, ⟨name, typeOf kind, tg, false⟩)] }) with
          | error msg => simp [hb₁, hso] at hBuild
          | ok inst₀ =>
            simp [hb₁, hso] at hBuild
            obtain ⟨h1, h2⟩ := hBuild
            subst h1
            subst h2
            have hso' : structOfAux (b.anonymousFields ++
                (b.fields.map Prod.snd ++ [⟨name, typeOf kind, tg, false⟩])) [] 0 =
                .ok inst₀ := by
              have : Builder.buildStructFields { b with
                  fields := b.fields ++ [(name, ⟨name, typeOf kind, tg, false⟩)] } =
                  b.anonymousFields ++
                    (b.fields.map Prod.snd ++ [⟨name, typeOf kind, tg, false⟩]) := by
                simp [Builder.buildStructFields]
              rw [this] at hso
              exact hso
            have hmem : (⟨name, typeOf kind, tg, false⟩ : StructField) ∈
                b.anonymousFields ++
                  (b.fields.map Prod.snd ++ [⟨name, typeOf kind, tg, false⟩]) := by
              simp
            have hfor := structOfAux_forall₂ _ _ _ _ hso'
            have hnodup := (structOfAux_nodup _ _ _ _ hso').2
            have hfind : inst₀.find? (fun f => f.name = name) =
                some ⟨name, t, tg, false, goZero t⟩ :=
              forall₂_find? _ inst₀ hfor ⟨name, typeOf kind, tg, false⟩ t hmem hnodup ht
            constructor
            · simp [Builder.GetField, hfind]
            · intro pv
              simp [Builder.GetFieldValue, hfind]

/-- Witness for C5 at the concrete Age field of type int. -/
theorem claim_C5_witness :
    Builder.GetField ((ageBuilder.Build).2) "Age" = .ok (goZero .int) ∧
    Builder.GetFieldValue ((ageBuilder.Build).2) "Age" (.pointer .int (.intV 5)) =
      (none, .pointer .int (goZero .int)) :=
  have h := claim_C5_field_starts_at_zero acceptAllTags New ageBuilder
    (ageBuilder.Build).2 "Age" intSample [] [⟨"Age", .int, "", false, .intV 0⟩]
    .int (by decide) (by decide) (by decide)
  ⟨h.1, h.2 (.intV 5)⟩

end Dynamicstruct
